import Mathlib

/-!
Shallow embedding of the openpond-sdk HTTP client (src/sdk.ts, the push
variant, and the polling variant of the OpenPondSDK class in
src/p2p/types.ts), together with theorems settling the frozen claims
about its polling watermark, callback dispatch and error handling.

HTTP traffic is modelled by passing the server's response for each
request as an explicit argument (an `Except HttpFailure _` oracle);
callback invocations are recorded as explicit lists of events so that
ordering and multiplicity can be stated.
-/

namespace OpenPond

/-- Message structure (src/p2p/types.ts, HTTP-mode `Message`). -/
structure Message where
  messageId : String
  fromAgentId : String
  toAgentId : String
  content : String
  timestamp : Nat
  conversationId : Option String
  replyTo : Option String
deriving DecidableEq

/-- SDK configuration (`OpenPondConfig`). -/
structure OpenPondConfig where
  apiUrl : String
  privateKey : String
  agentName : Option String
  apiKey : Option String
deriving DecidableEq

/-- Agent record returned by the registry endpoints (HTTP-mode `Agent`). -/
structure Agent where
  address : String
  name : String
  metadata : String
  reputation : Int
  isActive : Bool
  isBlocked : Bool
  registrationTime : Int
deriving DecidableEq

/-- A failed HTTP request: either a non-2xx response carrying a status
code (an axios error with a response) or a transport-level failure. -/
inductive HttpFailure where
  | axiosError (status : Nat)
  | transportError (msg : String)
deriving DecidableEq

/-- The test `axios.isAxiosError(error) && error.response?.status === 409`
used by `registerAgent`'s catch block. -/
def isConflict : HttpFailure → Bool
  | HttpFailure.axiosError s => s == 409
  | HttpFailure.transportError _ => false

/-- One invocation of the registered error callback, tagged by the call
site that performed it: the axios response interceptor installed in the
constructor, a public method's own catch block, or the poll-loop's
catch block inside `startPolling`. -/
inductive ErrCbCall where
  | fromInterceptor (e : HttpFailure)
  | fromCatch (e : HttpFailure)
  | fromPollLoop (e : HttpFailure)
deriving DecidableEq

/-- The axios response interceptor installed in the constructor:
successful responses pass through; on error it invokes the error
callback (when one is registered) and rethrows. -/
def interceptResponse {α : Type} (hasErrCb : Bool) (r : Except HttpFailure α) :
    List ErrCbCall × Except HttpFailure α :=
  match r with
  | Except.ok a => ([], Except.ok a)
  | Except.error e =>
      ((if hasErrCb then [ErrCbCall.fromInterceptor e] else []), Except.error e)

/-- Response body of `POST /messages`. -/
structure SendResponseData where
  messageId : String
deriving DecidableEq

/-- Response body of `GET /messages`. -/
structure GetMessagesData where
  messages : List Message
deriving DecidableEq

/-- Response body of `GET /agents`. -/
structure ListAgentsData where
  agents : List Agent
deriving DecidableEq

/-- `sendMessage`: the request goes through the interceptor; on success
the `messageId` field is returned, on failure the catch block invokes
the error callback and rethrows. -/
def sdkSendMessage (hasErrCb : Bool) (resp : Except HttpFailure SendResponseData) :
    List ErrCbCall × Except HttpFailure String :=
  match interceptResponse hasErrCb resp with
  | (cbs, Except.ok d) => (cbs, Except.ok d.messageId)
  | (cbs, Except.error e) =>
      (cbs ++ (if hasErrCb then [ErrCbCall.fromCatch e] else []), Except.error e)

/-- The `since` query parameter actually sent by `getMessages`:
`since || this.lastMessageTimestamp`, where an omitted or zero `since`
is falsy in JavaScript and is replaced by the watermark. -/
def effectiveSince (since : Option Nat) (lastMessageTimestamp : Nat) : Nat :=
  match since with
  | none => lastMessageTimestamp
  | some s => if s == 0 then lastMessageTimestamp else s

/-- Outcome of one `getMessages` call: the `since` value sent on the
wire, the error-callback invocations it performed, and its result. -/
structure GetMessagesOutcome where
  request : Nat
  errCbs : List ErrCbCall
  result : Except HttpFailure (List Message)

/-- `getMessages`: computes the effective `since` parameter, routes the
response through the interceptor, and on failure invokes the error
callback in its catch block before rethrowing. -/
def sdkGetMessages (hasErrCb : Bool) (lastMessageTimestamp : Nat)
    (since : Option Nat) (resp : Except HttpFailure GetMessagesData) :
    GetMessagesOutcome :=
  let req := effectiveSince since lastMessageTimestamp
  match interceptResponse hasErrCb resp with
  | (cbs, Except.ok d) => ⟨req, cbs, Except.ok d.messages⟩
  | (cbs, Except.error e) =>
      ⟨req, cbs ++ (if hasErrCb then [ErrCbCall.fromCatch e] else []), Except.error e⟩

/-- `getAgent`: interceptor plus per-method catch, returning the agent
record on success. -/
def sdkGetAgent (hasErrCb : Bool) (agentId : String)
    (resp : Except HttpFailure Agent) :
    List ErrCbCall × Except HttpFailure Agent :=
  match agentId, interceptResponse hasErrCb resp with
  | _, (cbs, Except.ok a) => (cbs, Except.ok a)
  | _, (cbs, Except.error e) =>
      (cbs ++ (if hasErrCb then [ErrCbCall.fromCatch e] else []), Except.error e)

/-- `listAgents`: interceptor plus per-method catch, returning the
`agents` field on success. -/
def sdkListAgents (hasErrCb : Bool) (resp : Except HttpFailure ListAgentsData) :
    List ErrCbCall × Except HttpFailure (List Agent) :=
  match interceptResponse hasErrCb resp with
  | (cbs, Except.ok d) => (cbs, Except.ok d.agents)
  | (cbs, Except.error e) =>
      (cbs ++ (if hasErrCb then [ErrCbCall.fromCatch e] else []), Except.error e)

/-- `registerAgent`: posts to `/agents/register`; its catch block
swallows an axios error with status 409 (already registered) and
rethrows anything else. The interceptor still fires on the 409. -/
def registerAgent (hasErrCb : Bool) (resp : Except HttpFailure Unit) :
    List ErrCbCall × Except HttpFailure Unit :=
  match interceptResponse hasErrCb resp with
  | (cbs, Except.ok _) => (cbs, Except.ok ())
  | (cbs, Except.error e) =>
      if isConflict e then (cbs, Except.ok ()) else (cbs, Except.error e)

/-- Mutable fields of the polling-variant SDK instance: the high-watermark
cursor `lastMessageTimestamp` and whether `pollInterval` is non-null. -/
structure SDKState where
  lastMessageTimestamp : Nat
  pollActive : Bool
deriving DecidableEq

/-- The state of a freshly constructed polling SDK: watermark 0 and no
poll interval. -/
def initialState : SDKState :=
  { lastMessageTimestamp := 0, pollActive := false }

/-- `start()` of the polling variant: awaits `registerAgent`; on success
calls `startPolling` (setting the interval); on failure its catch block
invokes the error callback and rethrows, leaving the state untouched. -/
def sdkStart (hasErrCb : Bool) (st : SDKState) (resp : Except HttpFailure Unit) :
    SDKState × List ErrCbCall × Except HttpFailure Unit :=
  match registerAgent hasErrCb resp with
  | (cbs, Except.ok _) => ({ st with pollActive := true }, cbs, Except.ok ())
  | (cbs, Except.error e) =>
      (st, cbs ++ (if hasErrCb then [ErrCbCall.fromCatch e] else []), Except.error e)

/-- `stop()` of the polling variant: clears the poll interval. -/
def sdkStop (st : SDKState) : SDKState :=
  { st with pollActive := false }

/-- The for-loop body of `startPolling` applied to the fetched message
list: for each message it sets
`lastMessageTimestamp = max(lastMessageTimestamp, message.timestamp)` and
then invokes the message callback (when registered). Returns the final
watermark and the list of callback deliveries in order. -/
def processMessages (hasMsgCb : Bool) (wm : Nat) : List Message → Nat × List Message
  | [] => (wm, [])
  | m :: rest =>
      ((processMessages hasMsgCb (max wm m.timestamp) rest).1,
       (if hasMsgCb then [m] else []) ++ (processMessages hasMsgCb (max wm m.timestamp) rest).2)

/-- One observable event inside the poll-loop body: an assignment to
`lastMessageTimestamp` or a message-callback invocation. -/
inductive LoopEvent where
  | setWatermark (value : Nat)
  | callback (m : Message)
deriving DecidableEq

/-- The exact event sequence the poll-loop body produces (with a message
callback registered): for each message, first the watermark assignment,
then the callback invocation. -/
def processTrace (wm : Nat) : List Message → List LoopEvent
  | [] => []
  | m :: rest =>
      LoopEvent.setWatermark (max wm m.timestamp) ::
      LoopEvent.callback m ::
      processTrace (max wm m.timestamp) rest

/-- The watermark after folding a message list into an initial value,
exactly as the loop's repeated `Math.max` does. -/
def watermarkAfter (wm : Nat) (msgs : List Message) : Nat :=
  List.foldl (fun a m => max a m.timestamp) wm msgs

/-- The maximum timestamp among a list of messages (base 0). -/
def maxTimestamp (msgs : List Message) : Nat :=
  List.foldl (fun a m => max a m.timestamp) 0 msgs

/-- Observable outcome of one or more poll ticks: the final instance
state, the `since` values of the `getMessages` requests issued, the
messages delivered to the callback in order, and the error-callback
invocations. -/
structure CycleOutcome where
  state : SDKState
  requests : List Nat
  delivered : List Message
  errCbs : List ErrCbCall

/-- One tick of the `setInterval` callback in `startPolling`: it calls
`getMessages()` (with `since` omitted, hence the watermark), then loops
over the result; a failure is caught and reported to the error callback
without touching the state or the interval. -/
def pollCycle (hasMsgCb hasErrCb : Bool) (st : SDKState)
    (resp : Except HttpFailure GetMessagesData) : CycleOutcome :=
  let gm := sdkGetMessages hasErrCb st.lastMessageTimestamp none resp
  match gm.result with
  | Except.ok msgs =>
      { state := { st with lastMessageTimestamp := (processMessages hasMsgCb st.lastMessageTimestamp msgs).1 },
        requests := [gm.request],
        delivered := (processMessages hasMsgCb st.lastMessageTimestamp msgs).2,
        errCbs := gm.errCbs }
  | Except.error e =>
      { state := st,
        requests := [gm.request],
        delivered := [],
        errCbs := gm.errCbs ++ (if hasErrCb then [ErrCbCall.fromPollLoop e] else []) }

/-- A sequence of poll ticks, one server response per tick, threading the
instance state and concatenating the observable events. -/
def runPolls (hasMsgCb hasErrCb : Bool) (st : SDKState) :
    List (Except HttpFailure GetMessagesData) → CycleOutcome
  | [] => { state := st, requests := [], delivered := [], errCbs := [] }
  | r :: rest =>
      { state := (runPolls hasMsgCb hasErrCb (pollCycle hasMsgCb hasErrCb st r).state rest).state,
        requests := (pollCycle hasMsgCb hasErrCb st r).requests ++
          (runPolls hasMsgCb hasErrCb (pollCycle hasMsgCb hasErrCb st r).state rest).requests,
        delivered := (pollCycle hasMsgCb hasErrCb st r).delivered ++
          (runPolls hasMsgCb hasErrCb (pollCycle hasMsgCb hasErrCb st r).state rest).delivered,
        errCbs := (pollCycle hasMsgCb hasErrCb st r).errCbs ++
          (runPolls hasMsgCb hasErrCb (pollCycle hasMsgCb hasErrCb st r).state rest).errCbs }

/-- Mutable fields of the push-variant SDK instance (src/sdk.ts):
whether `eventSource` is non-null. -/
structure PushState where
  eventSourceOpen : Bool
deriving DecidableEq

/-- A freshly constructed push-variant SDK: no event source open. -/
def initialPushState : PushState :=
  { eventSourceOpen := false }

/-- `start()` of the push variant (src/sdk.ts): awaits `registerAgent`;
on success opens the EventSource subscription; on failure the catch
block reports the error and rethrows, leaving `eventSource` null. -/
def pushStart (hasErrCb : Bool) (st : PushState) (resp : Except HttpFailure Unit) :
    PushState × List ErrCbCall × Except HttpFailure Unit :=
  match registerAgent hasErrCb resp with
  | (cbs, Except.ok _) => ({ eventSourceOpen := true }, cbs, Except.ok ())
  | (cbs, Except.error e) =>
      (st, cbs ++ (if hasErrCb then [ErrCbCall.fromCatch e] else []), Except.error e)

/-- The "message" event listener installed by the push variant's
`start()`: a successfully parsed message is handed to the message
callback only when `this.config.privateKey` is truthy and
`message.toAgentId === this.config.privateKey`; a parse failure goes to
the error callback. Returns (messages delivered, parse errors reported). -/
def handleStreamEvent (cfg : OpenPondConfig) (hasMsgCb hasErrCb : Bool)
    (parsed : Except String Message) : List Message × List String :=
  match parsed with
  | Except.ok m =>
      (if cfg.privateKey != "" && m.toAgentId == cfg.privateKey then
        (if hasMsgCb then [m] else [])
      else [], [])
  | Except.error msg => ([], if hasErrCb then [msg] else [])

/-- A concrete message with timestamp 100, used at counterexample inputs. -/
def mOld : Message :=
  { messageId := "m-old", fromAgentId := "0xaaa", toAgentId := "0xbbb",
    content := "hello", timestamp := 100, conversationId := none, replyTo := none }

/-- A concrete polling state whose watermark (300) already exceeds
`mOld`'s timestamp. -/
def stHigh : SDKState :=
  { lastMessageTimestamp := 300, pollActive := true }

/-- A concrete configuration whose identity is `"0xabc"`. -/
def cfgEx : OpenPondConfig :=
  { apiUrl := "https://api.example", privateKey := "0xabc",
    agentName := none, apiKey := none }

/-- A concrete message addressed to `cfgEx`'s identity. -/
def mMatch : Message :=
  { messageId := "m-1", fromAgentId := "0xaaa", toAgentId := "0xabc",
    content := "hi", timestamp := 200, conversationId := none, replyTo := none }

/-- Folding from a `max` of two initial values pulls the left one out of
the fold. -/
theorem watermarkAfter_max_init (a b : Nat) (msgs : List Message) :
    watermarkAfter (max a b) msgs = max a (watermarkAfter b msgs) := by
  induction msgs generalizing b with
  | nil => rfl
  | cons m rest ih =>
      show watermarkAfter (max (max a b) m.timestamp) rest =
        max a (watermarkAfter (max b m.timestamp) rest)
      rw [Nat.max_assoc, ih]

/-- The loop's fold equals the `max` of the initial watermark and the
maximum timestamp of the list. -/
theorem watermarkAfter_eq_max (wm : Nat) (msgs : List Message) :
    watermarkAfter wm msgs = max wm (maxTimestamp msgs) := by
  have h := watermarkAfter_max_init wm 0 msgs
  simpa using h

/-- The watermark never drops below its initial value under the fold. -/
theorem le_watermarkAfter (wm : Nat) (msgs : List Message) :
    wm ≤ watermarkAfter wm msgs := by
  rw [watermarkAfter_eq_max]
  exact Nat.le_max_left _ _

/-- The final watermark computed by the loop body is the fold of `max`
over the message timestamps. -/
theorem processMessages_fst (hasMsgCb : Bool) (wm : Nat) (msgs : List Message) :
    (processMessages hasMsgCb wm msgs).1 = watermarkAfter wm msgs := by
  induction msgs generalizing wm with
  | nil => rfl
  | cons m rest ih =>
      show (processMessages hasMsgCb (max wm m.timestamp) rest).1 =
        watermarkAfter (max wm m.timestamp) rest
      exact ih _

/-- With a registered message callback the loop delivers exactly the
fetched list, in order. -/
theorem processMessages_snd (wm : Nat) (msgs : List Message) :
    (processMessages true wm msgs).2 = msgs := by
  induction msgs generalizing wm with
  | nil => rfl
  | cons m rest ih => simp [processMessages, ih]

/-- Folding a `cons` steps the watermark by one `max`. -/
theorem watermarkAfter_cons (wm : Nat) (m : Message) (l : List Message) :
    watermarkAfter wm (m :: l) = watermarkAfter (max wm m.timestamp) l := rfl

/-- Positions of the loop events: the k-th watermark assignment sits at
index 2k and carries the fold of the first k+1 messages; the k-th
callback sits right after it, at index 2k+1. -/
theorem processTrace_get (wm : Nat) (msgs : List Message) (k : Nat)
    (hk : k < msgs.length) :
    (processTrace wm msgs).get? (2 * k) =
      some (LoopEvent.setWatermark (watermarkAfter wm (msgs.take (k + 1)))) ∧
    (processTrace wm msgs).get? (2 * k + 1) =
      some (LoopEvent.callback (msgs.get ⟨k, hk⟩)) := by
  induction msgs generalizing wm k with
  | nil => exact absurd hk (by simp)
  | cons m rest ih =>
      cases k with
      | zero =>
          constructor
          · simp [processTrace, watermarkAfter]
          · simp [processTrace]
      | succ k =>
          have hk2 : k < rest.length := by simpa using hk
          have h1 : 2 * (k + 1) = 2 * k + 1 + 1 := by ring
          rw [h1]
          have hrec := ih (max wm m.timestamp) k hk2
          constructor
          · show (processTrace (max wm m.timestamp) rest).get? (2 * k) = _
            rw [hrec.1]
            simp [watermarkAfter_cons]
          · show (processTrace (max wm m.timestamp) rest).get? (2 * k + 1) = _
            rw [hrec.2]
            simp


/-- Taking one more message steps the fold by one `max`. -/
theorem watermarkAfter_take_succ (wm : Nat) (msgs : List Message) (k : Nat)
    (hk : k < msgs.length) :
    watermarkAfter wm (msgs.take (k + 1)) =
      max (watermarkAfter wm (msgs.take k)) (msgs.get ⟨k, hk⟩).timestamp := by
  induction msgs generalizing wm k with
  | nil => exact absurd hk (by simp)
  | cons m rest ih =>
      cases k with
      | zero => simp [watermarkAfter]
      | succ k =>
          have hk2 : k < rest.length := by simpa using hk
          simpa [watermarkAfter_cons] using ih (max wm m.timestamp) k hk2

/-- Every poll tick issues exactly one `getMessages` request, whose
`since` parameter is the current watermark. -/
theorem pollCycle_requests (hasMsgCb hasErrCb : Bool) (st : SDKState)
    (resp : Except HttpFailure GetMessagesData) :
    (pollCycle hasMsgCb hasErrCb st resp).requests = [st.lastMessageTimestamp] := by
  cases resp <;> rfl

/-- A poll tick can only raise the watermark, never lower it. -/
theorem pollCycle_mono (hasMsgCb hasErrCb : Bool) (st : SDKState)
    (resp : Except HttpFailure GetMessagesData) :
    st.lastMessageTimestamp ≤
      (pollCycle hasMsgCb hasErrCb st resp).state.lastMessageTimestamp := by
  cases resp with
  | ok d =>
      show st.lastMessageTimestamp ≤
        (processMessages hasMsgCb st.lastMessageTimestamp d.messages).1
      rw [processMessages_fst]
      exact le_watermarkAfter _ _
  | error e => exact Nat.le_refl _

/-- Across any sequence of poll ticks the watermark is non-decreasing. -/
theorem runPolls_mono (hasMsgCb hasErrCb : Bool) (st : SDKState)
    (resps : List (Except HttpFailure GetMessagesData)) :
    st.lastMessageTimestamp ≤
      (runPolls hasMsgCb hasErrCb st resps).state.lastMessageTimestamp := by
  induction resps generalizing st with
  | nil => exact Nat.le_refl _
  | cons r rest ih =>
      exact Nat.le_trans (pollCycle_mono hasMsgCb hasErrCb st r)
        (ih (pollCycle hasMsgCb hasErrCb st r).state)

/-- One request goes out per tick, failures included. -/
theorem runPolls_requests_length (hasMsgCb hasErrCb : Bool) (st : SDKState)
    (resps : List (Except HttpFailure GetMessagesData)) :
    (runPolls hasMsgCb hasErrCb st resps).requests.length = resps.length := by
  induction resps generalizing st with
  | nil => rfl
  | cons r rest ih =>
      show ((pollCycle hasMsgCb hasErrCb st r).requests ++ _).length = _
      rw [List.length_append, pollCycle_requests, ih]
      simp [Nat.add_comm]

/-- Every branch of `start()` leaves the watermark untouched. -/
theorem sdkStart_preserves_watermark (hasErrCb : Bool) (st : SDKState)
    (resp : Except HttpFailure Unit) :
    (sdkStart hasErrCb st resp).1.lastMessageTimestamp = st.lastMessageTimestamp := by
  cases resp with
  | ok _ => rfl
  | error e =>
      by_cases h : isConflict e
      · simp [sdkStart, registerAgent, interceptResponse, h]
      · simp [sdkStart, registerAgent, interceptResponse, h]

/-- Claim C1: in the polling client the high-watermark cursor never
decreases: after processing the k-th message of a cycle the watermark
equals the maximum of its previous value and that message's timestamp
(first two conjuncts: the value assigned at the k-th step of the loop),
and across any sequence of poll cycles the watermark is monotonically
non-decreasing (last conjunct). -/
theorem C1_watermark_monotone (wm : Nat) (msgs : List Message) (k : Nat)
    (hk : k < msgs.length) :
    watermarkAfter wm (msgs.take (k + 1)) =
      max (watermarkAfter wm (msgs.take k)) (msgs.get ⟨k, hk⟩).timestamp ∧
    (processTrace wm msgs).get? (2 * k) =
      some (LoopEvent.setWatermark (watermarkAfter wm (msgs.take (k + 1)))) ∧
    (∀ (hasMsgCb hasErrCb : Bool) (st : SDKState)
        (resps : List (Except HttpFailure GetMessagesData)),
      st.lastMessageTimestamp ≤
        (runPolls hasMsgCb hasErrCb st resps).state.lastMessageTimestamp) :=
  ⟨watermarkAfter_take_succ wm msgs k hk,
   (processTrace_get wm msgs k hk).1,
   fun hasMsgCb hasErrCb st resps => runPolls_mono hasMsgCb hasErrCb st resps⟩

/-- Witness for C1 at the concrete input `wm = 0`, `msgs = [mOld]`,
`k = 0`: the first assigned watermark is `max 0 100`. -/
theorem C1_watermark_monotone_witness :
    0 < ([mOld] : List Message).length ∧
    watermarkAfter 0 (([mOld] : List Message).take 1) =
      max (watermarkAfter 0 (([mOld] : List Message).take 0))
        ((([mOld] : List Message).get ⟨0, by decide⟩).timestamp) :=
  ⟨by decide, (C1_watermark_monotone 0 [mOld] 0 (by decide)).1⟩

/-- Claim C2 as frozen fails at a concrete input: with the watermark
already at 300, a cycle whose response holds only `mOld` (timestamp
100) delivers `[mOld]` but leaves the watermark at 300, which differs
from the maximum timestamp (100) among the delivered messages. -/
theorem C2_deliver_and_watermark_counterexample :
    (pollCycle true true stHigh (Except.ok ⟨[mOld]⟩)).delivered = [mOld] ∧
    (pollCycle true true stHigh (Except.ok ⟨[mOld]⟩)).state.lastMessageTimestamp = 300 ∧
    maxTimestamp [mOld] = 100 ∧
    (pollCycle true true stHigh (Except.ok ⟨[mOld]⟩)).state.lastMessageTimestamp ≠
      maxTimestamp [mOld] := by
  refine ⟨by decide, by decide, by decide, by decide⟩

/-- Claim C2, amended: each message of the response is delivered to the
registered callback exactly once, in server order; after the cycle the
watermark equals the maximum of its previous value and the maximum
timestamp among the delivered messages (rather than that maximum
alone); and an empty response delivers nothing. -/
theorem C2_deliver_and_watermark (st : SDKState) (hasErrCb : Bool)
    (d : GetMessagesData) :
    (pollCycle true hasErrCb st (Except.ok d)).delivered = d.messages ∧
    (pollCycle true hasErrCb st (Except.ok d)).state.lastMessageTimestamp =
      max st.lastMessageTimestamp (maxTimestamp d.messages) ∧
    (pollCycle true hasErrCb st (Except.ok ⟨[]⟩)).delivered = [] := by
  refine ⟨?_, ?_, rfl⟩
  · show (processMessages true st.lastMessageTimestamp d.messages).2 = d.messages
    exact processMessages_snd _ _
  · show (processMessages true st.lastMessageTimestamp d.messages).1 = _
    rw [processMessages_fst, watermarkAfter_eq_max]

/-- Claim C3 as frozen fails at a concrete input: in the loop body the
watermark assignment for a message precedes the callback invocation for
that same message — with `msgs = [mOld]` the trace starts with the
assignment, and the assignment's index (0) is strictly below the
callback's index (1). -/
theorem C3_mutation_order_counterexample :
    processTrace 0 [mOld] =
      [LoopEvent.setWatermark 100, LoopEvent.callback mOld] ∧
    List.indexOf (LoopEvent.setWatermark 100) (processTrace 0 [mOld]) <
      List.indexOf (LoopEvent.callback mOld) (processTrace 0 [mOld]) := by
  refine ⟨by decide, by decide⟩

/-- Claim C3, amended: the watermark is mutated only by the polling loop
(`stop` and `start` leave it unchanged, and the unary calls never touch
the instance state in the source), and for each message the mutation
happens immediately BEFORE that message is handed to the callback: the
k-th assignment sits at trace index 2k, directly followed by the k-th
callback at index 2k+1. -/
theorem C3_mutation_order (st : SDKState) (hasErrCb : Bool)
    (resp : Except HttpFailure Unit) (wm : Nat) (msgs : List Message) (k : Nat)
    (hk : k < msgs.length) :
    (sdkStop st).lastMessageTimestamp = st.lastMessageTimestamp ∧
    (sdkStart hasErrCb st resp).1.lastMessageTimestamp = st.lastMessageTimestamp ∧
    (processTrace wm msgs).get? (2 * k) =
      some (LoopEvent.setWatermark (watermarkAfter wm (msgs.take (k + 1)))) ∧
    (processTrace wm msgs).get? (2 * k + 1) =
      some (LoopEvent.callback (msgs.get ⟨k, hk⟩)) :=
  ⟨rfl, sdkStart_preserves_watermark hasErrCb st resp,
   (processTrace_get wm msgs k hk).1, (processTrace_get wm msgs k hk).2⟩

/-- Witness for the amended C3 at `st = stHigh`, `resp = ok`, `wm = 0`,
`msgs = [mOld]`, `k = 0`: the callback event sits at index 1, after the
assignment at index 0. -/
theorem C3_mutation_order_witness :
    0 < ([mOld] : List Message).length ∧
    (processTrace 0 [mOld]).get? (2 * 0 + 1) =
      some (LoopEvent.callback (([mOld] : List Message).get ⟨0, by decide⟩)) :=
  ⟨by decide,
   (C3_mutation_order stHigh true (Except.ok ()) 0 [mOld] 0 (by decide)).2.2.2⟩

/-- Claim C4: in the push client (src/sdk.ts) an inbound event that
parses as a Message reaches the message callback exactly when its
recipient matches the configured identity: a non-matching recipient is
never delivered, a matching one (with a registered callback) always is.
The configured identity must be non-empty, since the listener first
checks that `this.config.privateKey` is truthy. -/
theorem C4_push_filter (cfg : OpenPondConfig) (m : Message) (hasMsgCb hasErrCb : Bool)
    (hk : cfg.privateKey ≠ "") :
    (m.toAgentId ≠ cfg.privateKey →
      (handleStreamEvent cfg hasMsgCb hasErrCb (Except.ok m)).1 = []) ∧
    (m.toAgentId = cfg.privateKey →
      (handleStreamEvent cfg true hasErrCb (Except.ok m)).1 = [m]) := by
  constructor
  · intro hne
    simp [handleStreamEvent, hne]
  · intro heq
    simp [handleStreamEvent, heq, hk]

/-- Witness for C4 at `cfgEx` and the matching message `mMatch`. -/
theorem C4_push_filter_witness :
    cfgEx.privateKey ≠ "" ∧
    (handleStreamEvent cfgEx true true (Except.ok mMatch)).1 = [mMatch] :=
  ⟨by decide, (C4_push_filter cfgEx mMatch true true (by decide)).2 rfl⟩

/-- Claim C5: a 409 conflict from the registration endpoint is swallowed
by `registerAgent`'s catch block, so both `registerAgent` itself and the
`start()` call wrapping it resolve successfully on the conflict path. -/
theorem C5_register_conflict_idempotent (hasErrCb : Bool) (st : SDKState) :
    (registerAgent hasErrCb (Except.error (HttpFailure.axiosError 409))).2 = Except.ok () ∧
    (sdkStart hasErrCb st (Except.error (HttpFailure.axiosError 409))).2.2 = Except.ok () :=
  ⟨rfl, rfl⟩

/-- Claim C6: every failing public unary call (sendMessage, getMessages,
getAgent, listAgents) with a registered error callback both invokes the
callback (interceptor and catch block) and propagates the error to the
caller — dual channels, never only one. -/
theorem C6_dual_channel (e : HttpFailure) (wm : Nat) (since : Option Nat) (aid : String) :
    sdkSendMessage true (Except.error e) =
      ([ErrCbCall.fromInterceptor e, ErrCbCall.fromCatch e], Except.error e) ∧
    (sdkGetMessages true wm since (Except.error e)).errCbs =
      [ErrCbCall.fromInterceptor e, ErrCbCall.fromCatch e] ∧
    (sdkGetMessages true wm since (Except.error e)).result = Except.error e ∧
    sdkGetAgent true aid (Except.error e) =
      ([ErrCbCall.fromInterceptor e, ErrCbCall.fromCatch e], Except.error e) ∧
    sdkListAgents true (Except.error e) =
      ([ErrCbCall.fromInterceptor e, ErrCbCall.fromCatch e], Except.error e) :=
  ⟨rfl, rfl, rfl, rfl, rfl⟩

/-- Claim C7: a failing poll cycle reports through the error callback
(the loop's catch block fires), leaves the instance state — watermark
and interval — untouched, issues exactly one `getMessages` request in
the failing cycle (no immediate retry), and the following ticks still
issue one request each. -/
theorem C7_poll_failure_self_healing (hasMsgCb : Bool) (st : SDKState)
    (e : HttpFailure) (rest : List (Except HttpFailure GetMessagesData)) :
    ErrCbCall.fromPollLoop e ∈ (pollCycle hasMsgCb true st (Except.error e)).errCbs ∧
    (pollCycle hasMsgCb true st (Except.error e)).state = st ∧
    (pollCycle hasMsgCb true st (Except.error e)).requests = [st.lastMessageTimestamp] ∧
    (runPolls hasMsgCb true st (Except.error e :: rest)).requests.length =
      rest.length + 1 := by
  refine ⟨?_, rfl, pollCycle_requests _ _ _ _, ?_⟩
  · show ErrCbCall.fromPollLoop e ∈
      [ErrCbCall.fromInterceptor e, ErrCbCall.fromCatch e, ErrCbCall.fromPollLoop e]
    simp
  · rw [runPolls_requests_length]
    rfl

/-- Claim C8: when `registerAgent` fails with anything but the swallowed
conflict, `start()` rejects with that error and leaves no
partial-connected state: the polling client's interval is never started
and the push client's event source is never opened. -/
theorem C8_start_atomic (hasErrCb : Bool) (e : HttpFailure)
    (h : isConflict e = false) :
    (sdkStart hasErrCb initialState (Except.error e)).1.pollActive = false ∧
    (sdkStart hasErrCb initialState (Except.error e)).2.2 = Except.error e ∧
    (pushStart hasErrCb initialPushState (Except.error e)).1.eventSourceOpen = false ∧
    (pushStart hasErrCb initialPushState (Except.error e)).2.2 = Except.error e := by
  refine ⟨?_, ?_, ?_, ?_⟩ <;>
    simp [sdkStart, pushStart, registerAgent, interceptResponse, h,
      initialState, initialPushState]

/-- Witness for C8 at a concrete 500 response. -/
theorem C8_start_atomic_witness :
    isConflict (HttpFailure.axiosError 500) = false ∧
    ((sdkStart true initialState (Except.error (HttpFailure.axiosError 500))).1.pollActive = false ∧
     (sdkStart true initialState (Except.error (HttpFailure.axiosError 500))).2.2 =
       Except.error (HttpFailure.axiosError 500) ∧
     (pushStart true initialPushState (Except.error (HttpFailure.axiosError 500))).1.eventSourceOpen = false ∧
     (pushStart true initialPushState (Except.error (HttpFailure.axiosError 500))).2.2 =
       Except.error (HttpFailure.axiosError 500)) :=
  ⟨by decide, C8_start_atomic true (HttpFailure.axiosError 500) (by decide)⟩

/-- Claim C9: one failing unary call with a registered error callback
invokes that callback exactly twice — first from the axios response
interceptor, then from the method's own catch block — before the error
reaches the caller. -/
theorem C9_double_error_callback (e : HttpFailure) (wm : Nat) (since : Option Nat)
    (aid : String) :
    (sdkSendMessage true (Except.error e)).1.length = 2 ∧
    (sdkSendMessage true (Except.error e)).1.head? = some (ErrCbCall.fromInterceptor e) ∧
    (sdkSendMessage true (Except.error e)).1.getLast? = some (ErrCbCall.fromCatch e) ∧
    (sdkGetMessages true wm since (Except.error e)).errCbs.length = 2 ∧
    (sdkGetAgent true aid (Except.error e)).1.length = 2 ∧
    (sdkListAgents true (Except.error e)).1.length = 2 :=
  ⟨rfl, rfl, rfl, rfl, rfl, rfl⟩

/-- Claim C10: `getMessages` never sends `since=0` — an omitted or zero
`since` argument is falsy in `since || this.lastMessageTimestamp` and is
replaced by the watermark, so only a nonzero `since` overrides it. -/
theorem C10_since_falsy_replaced (hasErrCb : Bool) (wm : Nat)
    (resp : Except HttpFailure GetMessagesData) :
    (sdkGetMessages hasErrCb wm none resp).request = wm ∧
    (sdkGetMessages hasErrCb wm (some 0) resp).request = wm ∧
    ∀ s : Nat, s ≠ 0 → (sdkGetMessages hasErrCb wm (some s) resp).request = s := by
  have hreq : ∀ (since : Option Nat),
      (sdkGetMessages hasErrCb wm since resp).request = effectiveSince since wm := by
    intro since
    cases resp <;> rfl
  refine ⟨?_, ?_, ?_⟩
  · rw [hreq]; rfl
  · rw [hreq]; rfl
  · intro s hs
    rw [hreq]
    have hb : (s == 0) = false := by simpa using hs
    simp [effectiveSince, hb]

/-- Witness for C10 at `wm = 3`, `since = some 7`. -/
theorem C10_since_falsy_replaced_witness :
    (7 : Nat) ≠ 0 ∧
    (sdkGetMessages true 3 (some 7) (Except.ok ⟨[]⟩)).request = 7 :=
  ⟨by decide, (C10_since_falsy_replaced true 3 (Except.ok ⟨[]⟩)).2.2 7 (by decide)⟩

end OpenPond
